import Mathlib

/-!
Shallow embedding of bootstrap.py from helios-bootstrap.

The script bootstraps a Helios cluster namespace inside a ZooKeeper-like
coordination store: a check transaction over six namespace-scoped paths,
a non-transactional ensure step for the shared root /helios, and an
atomic create transaction over the same six paths.

The ZooKeeper client library (kazoo) is an external collaborator; its
store semantics are modelled from the transactional behaviour the source
relies on and documents in its comments: an ordered atomic batch with a
per-operation result vector where every operation after a failed one
reports RuntimeInconsistency, an existence query, and a single create
that raises NodeExistsError on an existing path. All durable state is
the store itself, passed explicitly; creations performed by concurrent
actors are passed explicitly as interference at the points where another
process can interleave with this invocation's store calls.
-/

/-- A coordination-store state: an association list from node paths to
node content, in creation order. -/
abbrev Store := List (String × String)

/-- Look up the content stored at a path. -/
def Store.lookup : Store → String → Option String
  | [], _ => none
  | (q, c) :: rest, p => if q = p then some c else Store.lookup rest p

/-- Whether a path currently exists in the store. -/
def Store.pathExists (s : Store) (p : String) : Bool :=
  (Store.lookup s p).isSome

/-- Effect on the store of some actor creating a node: the node is added
when absent; a create of an existing node fails and changes nothing. -/
def Store.addPath (s : Store) (p c : String) : Store :=
  if Store.pathExists s p then s else s ++ [(p, c)]

/-- Apply a batch of creations by concurrent actors, in order. -/
def Store.addAll (s : Store) (l : List (String × String)) : Store :=
  l.foldl (fun t pc => Store.addPath t pc.1 pc.2) s

/-- node_list (lines 79 to 86): the six namespace-scoped paths, one per
template, in source order. -/
def nodeList (ns : String) : List String :=
  ["/helios/" ++ ns,
   "/helios/" ++ ns ++ "/config",
   "/helios/" ++ ns ++ "/config/hosts",
   "/helios/" ++ ns ++ "/config/id",
   "/helios/" ++ ns ++ "/status",
   "/helios/" ++ ns ++ "/status/hosts"]

/-- Result of one check operation inside the Phase 1 transaction, as the
source documents at lines 94 to 96: True when the node exists, a
NoNodeError when it does not, a RuntimeInconsistency when an earlier
operation in the batch failed. -/
inductive CheckRes
  | isTrue
  | noNode
  | inconsistency
deriving DecidableEq

/-- Sequential evaluation of the check batch: once an operation fails
because its node is missing, every later operation reports
RuntimeInconsistency. -/
def checkGo (s : Store) : Bool → List String → List CheckRes
  | _, [] => []
  | true, _ :: rest => CheckRes.inconsistency :: checkGo s true rest
  | false, n :: rest =>
    if Store.pathExists s n then CheckRes.isTrue :: checkGo s false rest
    else CheckRes.noNode :: checkGo s true rest

/-- The result vector of the committed Phase 1 check transaction
(line 92 builds the batch, line 97 commits it). -/
def checkResults (s : Store) (nodes : List String) : List CheckRes :=
  checkGo s false nodes

/-- nodes_missing (line 97): per position, the result is not True. -/
def nodesMissing (s : Store) (nodes : List String) : List Bool :=
  (checkResults s nodes).map (fun r => decide (r ≠ CheckRes.isTrue))

/-- Phase 1 passes when the collision branch at line 99 is not taken,
that is when every entry of nodes_missing is true. -/
def phase1Passes (s : Store) (nodes : List String) : Bool :=
  (nodesMissing s nodes).all (fun b => b)

/-- The node paths logged at lines 100 to 102: the entries whose check
result was True. -/
def collisionReport (s : Store) (nodes : List String) : List String :=
  ((nodes.zip (nodesMissing s nodes)).filter (fun x => !x.2)).map (fun x => x.1)

/-- Result of one create operation inside the Phase 3 transaction, as
the source documents at lines 117 and 118: the created path string on
success, an exception object otherwise. -/
inductive CreateRes
  | ok (path : String)
  | err
deriving DecidableEq

/-- Whether a create operation succeeded. -/
def CreateRes.isOk : CreateRes → Bool
  | CreateRes.ok _ => true
  | CreateRes.err => false

/-- Sequential evaluation of the create batch against a speculative
store: a create fails when its path already exists, and every operation
after a failure fails as dependent. -/
def createGo : Store → Bool → List String → List CreateRes × Store
  | s, _, [] => ([], s)
  | s, true, _ :: rest =>
    let (rs, s') := createGo s true rest
    (CreateRes.err :: rs, s')
  | s, false, n :: rest =>
    if Store.pathExists s n then
      let (rs, s') := createGo s true rest
      (CreateRes.err :: rs, s')
    else
      let (rs, s') := createGo (Store.addPath s n "") false rest
      (CreateRes.ok n :: rs, s')

/-- Atomic commit of the create transaction (line 115 builds the batch,
line 119 commits it): the store applies the batch only when every
operation succeeded, and is left unchanged otherwise. -/
def createCommit (s : Store) (nodes : List String) : List CreateRes × Store :=
  let (rs, s') := createGo s false nodes
  (rs, if rs.all CreateRes.isOk then s' else s)

/-- nodes_created (line 119): per position, the result equals the
requested path. -/
def nodesCreated (rs : List CreateRes) (nodes : List String) : List Bool :=
  List.zipWith (fun r n => decide (r = CreateRes.ok n)) rs nodes

/-- The node paths logged at lines 122 to 124: the entries whose create
did not report the created path. -/
def createFailReport (rs : List CreateRes) (nodes : List String) : List String :=
  ((nodes.zip (nodesCreated rs nodes)).filter (fun x => !x.2)).map (fun x => x.1)

/-- The store calls one bootstrap invocation can make, in order: the
Phase 1 check commit, the root existence query, the root create, and the
Phase 3 create commit. -/
inductive Event
  | checkTxn
  | rootQuery
  | rootCreate
  | createTxn
deriving DecidableEq

/-- An exception escaping bootstrap: kazoo raises NodeExistsError when
create is called on an existing path, and the create at line 109 is not
guarded against a racing creator. -/
inductive ZKerr
  | nodeExists
deriving DecidableEq

/-- How a call to bootstrap ends: a Python return value, which is None
when the function falls off the end at line 128, or an uncaught
exception. -/
inductive BootStatus
  | returned (v : Option Nat)
  | raised (e : ZKerr)
deriving DecidableEq

/-- Creations performed by concurrent actors at the three points where
another process can interleave with the store calls of one bootstrap
invocation: after the Phase 1 commit, between the root query and the
root create, and after the root-ensure step. -/
structure Interference where
  afterCheck : List (String × String)
  duringRoot : List (String × String)
  afterRoot : List (String × String)

/-- The single-call scenario: no concurrent actor interleaves. -/
def noItf : Interference := ⟨[], [], []⟩

/-- Every path a concurrent actor may create during the interference. -/
def itfPaths (itf : Interference) : List String :=
  (itf.afterCheck ++ itf.duringRoot ++ itf.afterRoot).map (fun pc => pc.1)

/-- Phase 2 (lines 106 to 109): query the root path and create it when
the query reported it absent; a racing creation between the query and
the create makes the unguarded create raise NodeExistsError. -/
def rootEnsure (s : Store) (race : List (String × String)) :
    List Event × Store × Option ZKerr :=
  if Store.pathExists s "/helios" then ([Event.rootQuery], s, none)
  else
    let s' := Store.addAll s race
    if Store.pathExists s' "/helios" then
      ([Event.rootQuery, Event.rootCreate], s', some ZKerr.nodeExists)
    else
      ([Event.rootQuery, Event.rootCreate], Store.addPath s' "/helios" "", none)

/-- The bootstrap function (lines 78 to 128), with the store passed
explicitly and interleaved external creations made explicit. Returns
the trace of store calls made, how the call ended, and the final store
state. -/
def bootstrapRun (s0 : Store) (ns : String) (itf : Interference) :
    List Event × BootStatus × Store :=
  let nodes := nodeList ns
  if phase1Passes s0 nodes then
    let s1 := Store.addAll s0 itf.afterCheck
    match rootEnsure s1 itf.duringRoot with
    | (evs, s2, some e) => (Event.checkTxn :: evs, BootStatus.raised e, s2)
    | (evs, s2, none) =>
      let s3 := Store.addAll s2 itf.afterRoot
      let (rs, s4) := createCommit s3 nodes
      if (nodesCreated rs nodes).all (fun b => b) then
        (Event.checkTxn :: (evs ++ [Event.createTxn]), BootStatus.returned none, s4)
      else
        (Event.checkTxn :: (evs ++ [Event.createTxn]), BootStatus.returned (some 1), s4)
  else
    ([Event.checkTxn], BootStatus.returned (some 1), s0)

/-- The store state the Phase 3 create transaction is committed against,
when execution reaches Phase 3 without raising. -/
def storeAtPhase3 (s0 : Store) (ns : String) (itf : Interference) : Option Store :=
  if phase1Passes s0 (nodeList ns) then
    match rootEnsure (Store.addAll s0 itf.afterCheck) itf.duringRoot with
    | (_, _, some _) => none
    | (_, s2, none) => some (Store.addAll s2 itf.afterRoot)
  else none

/-- Whether the connection-establishment collaborator handed over a live
client or timed out (lines 65 to 69). -/
inductive ConnectOutcome
  | connected
  | timedOut

/-- main (lines 51 to 76): a connection timeout returns 1 before the
core runs; otherwise the status returned by bootstrap is returned, and
an exception escaping bootstrap propagates. -/
def mainRun (conn : ConnectOutcome) (s0 : Store) (ns : String)
    (itf : Interference) : BootStatus :=
  match conn with
  | ConnectOutcome.timedOut => BootStatus.returned (some 1)
  | ConnectOutcome.connected => (bootstrapRun s0 ns itf).2.1

/-- Python exit at line 131: exit applied to None gives process exit
code 0, exit applied to an integer gives that integer. -/
def pyExit : Option Nat → Nat
  | none => 0
  | some n => n

/-- The process exit code produced for a bootstrap status: the returned
value through exit, or 1 when an uncaught exception kills the
interpreter. -/
def processExit : BootStatus → Nat
  | BootStatus.returned v => pyExit v
  | BootStatus.raised _ => 1

/-- The sixteen lowercase hexadecimal digit characters. -/
def hexDigits : List Char :=
  ['0', '1', '2', '3', '4'] ++ ['5', '6', '7', '8', '9'] ++
    ['a', 'b', 'c'] ++ ['d', 'e', 'f']

/-- The lowercase hexadecimal digit character for a value. -/
def hexChar (n : Nat) : Char :=
  hexDigits.getD (n % 16) '0'

/-- Modelled from the spec: the NamespaceGenerator at line 71 calls the
external Python uuid library, whose version 4 value draws 128 random
bits and forces hexadecimal digit 12 to the version 4 and the top two
bits of digit 16 to the variant, so digit 16 lies in 8 to 11. This is
digit k, most significant first, of the value built from random bits r. -/
def uuidNibble (r : Nat) (k : Nat) : Nat :=
  if k = 12 then 4
  else if k = 16 then 8 + (r / 16 ^ (31 - k)) % 4
  else (r / 16 ^ (31 - k)) % 16

/-- A group of consecutive hexadecimal digits of the rendered token. -/
def uuidGroup (r : Nat) (start len : Nat) : List Char :=
  (List.range len).map (fun i => hexChar (uuidNibble r (start + i)))

/-- Modelled from the spec: the canonical textual rendering produced by
the generator, 32 lowercase hexadecimal digits in groups of 8-4-4-4-12
separated by dashes. -/
def uuidString (r : Nat) : String :=
  String.mk (uuidGroup r 0 8 ++ ['-'] ++ uuidGroup r 8 4 ++ ['-'] ++
    uuidGroup r 12 4 ++ ['-'] ++ uuidGroup r 16 4 ++ ['-'] ++ uuidGroup r 20 12)

/-! ### Store lemmas -/

theorem Store.lookup_append (s t : Store) (p : String) :
    Store.lookup (s ++ t) p =
      match Store.lookup s p with
      | some c => some c
      | none => Store.lookup t p := by
  induction s with
  | nil => simp [Store.lookup]
  | cons hd tl ih =>
    obtain ⟨q, c⟩ := hd
    by_cases h : q = p <;> simp [Store.lookup, h, ih]

theorem Store.pathExists_addPath (s : Store) (p c q : String) :
    Store.pathExists (Store.addPath s p c) q =
      (Store.pathExists s q || decide (p = q)) := by
  unfold Store.addPath
  by_cases h : Store.pathExists s p
  · simp only [h, if_true]
    by_cases hpq : p = q
    · subst hpq
      simp [h]
    · simp [hpq]
  · simp only [h, if_false, Bool.false_eq_true]
    unfold Store.pathExists
    rw [Store.lookup_append]
    rcases hl : Store.lookup s q with _ | c'
    · by_cases hpq : p = q <;> simp [Store.lookup, hpq, Store.pathExists, hl]
    · simp [Store.pathExists, hl]

theorem Store.lookup_addPath_ne (s : Store) (p c q : String) (h : p ≠ q) :
    Store.lookup (Store.addPath s p c) q = Store.lookup s q := by
  unfold Store.addPath
  by_cases he : Store.pathExists s p
  · simp [he]
  · simp only [he, if_false, Bool.false_eq_true]
    rw [Store.lookup_append]
    rcases hl : Store.lookup s q with _ | c'
    · simp [Store.lookup, h]
    · rfl

theorem Store.lookup_addPath_keep (s : Store) (p c q c' : String)
    (h : Store.lookup s q = some c') :
    Store.lookup (Store.addPath s p c) q = some c' := by
  unfold Store.addPath
  by_cases he : Store.pathExists s p
  · simp [he, h]
  · simp only [he, if_false, Bool.false_eq_true]
    rw [Store.lookup_append, h]

theorem Store.lookup_addPath_new (s : Store) (p c : String)
    (h : Store.pathExists s p = false) :
    Store.lookup (Store.addPath s p c) p = some c := by
  unfold Store.addPath
  simp only [h, if_false, Bool.false_eq_true]
  rw [Store.lookup_append]
  unfold Store.pathExists at h
  rcases hl : Store.lookup s p with _ | c'
  · simp [Store.lookup]
  · rw [hl] at h
    simp at h

theorem Store.lookup_addAll_keep (l : List (String × String)) (s : Store)
    (q c' : String) (h : Store.lookup s q = some c') :
    Store.lookup (Store.addAll s l) q = some c' := by
  induction l generalizing s with
  | nil => exact h
  | cons hd tl ih =>
    exact ih _ (Store.lookup_addPath_keep _ _ _ _ _ h)

theorem Store.lookup_addAll_notin (l : List (String × String)) (s : Store)
    (q : String) (h : q ∉ l.map Prod.fst) :
    Store.lookup (Store.addAll s l) q = Store.lookup s q := by
  induction l generalizing s with
  | nil => rfl
  | cons hd tl ih =>
    simp only [List.map_cons, List.mem_cons] at h
    push_neg at h
    rw [Store.addAll, List.foldl_cons, ← Store.addAll]
    rw [ih _ h.2, Store.lookup_addPath_ne]
    exact fun he => h.1 he.symm

theorem Store.pathExists_addAll_mono (l : List (String × String)) (s : Store)
    (q : String) (h : Store.pathExists s q = true) :
    Store.pathExists (Store.addAll s l) q = true := by
  unfold Store.pathExists at h ⊢
  rcases hl : Store.lookup s q with _ | c'
  · rw [hl] at h
    simp at h
  · rw [Store.lookup_addAll_keep l s q c' hl]
    rfl

/-! ### Phase 1 lemmas -/

theorem checkGo_failed_all (s : Store) (l : List String) :
    ∀ r ∈ checkGo s true l, r = CheckRes.inconsistency := by
  induction l with
  | nil => intro r hr; simp [checkGo] at hr
  | cons hd tl ih =>
    intro r hr
    rw [checkGo] at hr
    rcases List.mem_cons.mp hr with h | h
    · exact h
    · exact ih r h

theorem phase1Passes_cons (s : Store) (n : String) (rest : List String) :
    phase1Passes s (n :: rest) = !(Store.pathExists s n) := by
  unfold phase1Passes nodesMissing checkResults
  cases h : Store.pathExists s n with
  | true =>
    rw [checkGo]
    simp [h]
  | false =>
    rw [checkGo]
    simp only [h, Bool.false_eq_true, if_false, List.map_cons, List.all_cons,
      Bool.not_false]
    have h2 : ((checkGo s true rest).map
        (fun r => decide (r ≠ CheckRes.isTrue))).all (fun b => b) = true := by
      rw [List.all_eq_true]
      intro b hb
      rcases List.mem_map.mp hb with ⟨r, hr, hb'⟩
      rw [checkGo_failed_all s rest r hr] at hb'
      rw [← hb']
      rfl
    rw [h2]
    rfl

/-! ### Phase 3 lemmas -/

theorem createGo_failed_results (s : Store) (l : List String) :
    (createGo s true l).1 = l.map (fun _ => CreateRes.err) ∧
      (createGo s true l).2 = s := by
  induction l with
  | nil => exact ⟨rfl, rfl⟩
  | cons hd tl ih => simp [createGo, ih.1, ih.2]

theorem nodesCreated_all_eq_isOk (nodes : List String) :
    ∀ s f, (nodesCreated (createGo s f nodes).1 nodes).all (fun b => b) =
      (createGo s f nodes).1.all CreateRes.isOk := by
  induction nodes with
  | nil => intro s f; cases f <;> rfl
  | cons n rest ih =>
    intro s f
    match f with
    | true =>
      rw [createGo]
      simp only [nodesCreated, List.zipWith_cons_cons, List.all_cons]
      simp only [nodesCreated] at ih
      simp [CreateRes.isOk, ih s true]
    | false =>
      rw [createGo]
      by_cases h : Store.pathExists s n
      · simp only [h, if_true]
        simp only [nodesCreated, List.zipWith_cons_cons, List.all_cons]
        simp only [nodesCreated] at ih
        simp [CreateRes.isOk, ih s true]
      · simp only [h, if_false, Bool.false_eq_true]
        simp only [nodesCreated, List.zipWith_cons_cons, List.all_cons]
        simpa [CreateRes.isOk, nodesCreated] using
          ih (Store.addPath s n "") false

theorem createGo_fail_of_exists (nodes : List String) :
    ∀ s, (∃ n ∈ nodes, Store.pathExists s n = true) →
      (createGo s false nodes).1.all CreateRes.isOk = false := by
  induction nodes with
  | nil =>
    intro s h
    simp at h
  | cons n rest ih =>
    intro s h
    rw [createGo]
    by_cases hn : Store.pathExists s n
    · simp [hn, CreateRes.isOk]
    · simp only [hn, if_false, Bool.false_eq_true]
      rcases h with ⟨m, hm, hms⟩
      rcases List.mem_cons.mp hm with rfl | hm'
      · rw [hms] at hn
        simp at hn
      · have hmono : Store.pathExists (Store.addPath s n "") m = true := by
          rw [Store.pathExists_addPath, hms]
          rfl
        simp only [List.all_cons]
        rw [ih (Store.addPath s n "") ⟨m, hm', hmono⟩]
        simp [CreateRes.isOk]

theorem createGo_ok_of_fresh (nodes : List String) :
    ∀ s, nodes.Nodup → (∀ n ∈ nodes, Store.pathExists s n = false) →
      (createGo s false nodes).1.all CreateRes.isOk = true := by
  induction nodes with
  | nil => intro s _ _; rfl
  | cons n rest ih =>
    intro s hnd hfresh
    rw [createGo]
    have hn : Store.pathExists s n = false := hfresh n (List.mem_cons_self n rest)
    simp only [hn, if_false, Bool.false_eq_true, List.all_cons]
    have hrest : ∀ m ∈ rest, Store.pathExists (Store.addPath s n "") m = false := by
      intro m hm
      rw [Store.pathExists_addPath, hfresh m (List.mem_cons_of_mem n hm)]
      have : n ≠ m := fun he => (List.nodup_cons.mp hnd).1 (he ▸ hm)
      simp [this]
    rw [ih (Store.addPath s n "") (List.nodup_cons.mp hnd).2 hrest]
    rfl

theorem createGo_lookup_notin (nodes : List String) :
    ∀ s f p, p ∉ nodes →
      Store.lookup (createGo s f nodes).2 p = Store.lookup s p := by
  induction nodes with
  | nil => intro s f p _; cases f <;> rfl
  | cons n rest ih =>
    intro s f p hp
    have hpn : n ≠ p := fun he => hp (he ▸ List.mem_cons_self n rest)
    have hprest : p ∉ rest := fun h => hp (List.mem_cons_of_mem n h)
    match f with
    | true =>
      rw [createGo]
      exact ih s true p hprest
    | false =>
      rw [createGo]
      by_cases hn : Store.pathExists s n
      · simp only [hn, if_true]
        exact ih s true p hprest
      · simp only [hn, if_false, Bool.false_eq_true]
        rw [ih (Store.addPath s n "") false p hprest]
        exact Store.lookup_addPath_ne s n "" p hpn

theorem createGo_lookup_keep (nodes : List String) :
    ∀ s f p c, Store.lookup s p = some c →
      Store.lookup (createGo s f nodes).2 p = some c := by
  induction nodes with
  | nil => intro s f p c h; cases f <;> exact h
  | cons n rest ih =>
    intro s f p c h
    match f with
    | true =>
      rw [createGo]
      exact ih s true p c h
    | false =>
      rw [createGo]
      by_cases hn : Store.pathExists s n
      · simp only [hn, if_true]
        exact ih s true p c h
      · simp only [hn, if_false, Bool.false_eq_true]
        exact ih (Store.addPath s n "") false p c
          (Store.lookup_addPath_keep s n "" p c h)

theorem createGo_lookup_mem (nodes : List String) :
    ∀ s, nodes.Nodup → (∀ n ∈ nodes, Store.pathExists s n = false) →
      ∀ p ∈ nodes, Store.lookup (createGo s false nodes).2 p = some "" := by
  induction nodes with
  | nil =>
    intro s _ _ p hp
    simp at hp
  | cons n rest ih =>
    intro s hnd hfresh p hp
    have hn : Store.pathExists s n = false := hfresh n (List.mem_cons_self n rest)
    rw [createGo]
    simp only [hn, if_false, Bool.false_eq_true]
    have hrest : ∀ m ∈ rest, Store.pathExists (Store.addPath s n "") m = false := by
      intro m hm
      rw [Store.pathExists_addPath, hfresh m (List.mem_cons_of_mem n hm)]
      have : n ≠ m := fun he => (List.nodup_cons.mp hnd).1 (he ▸ hm)
      simp [this]
    rcases List.mem_cons.mp hp with rfl | hp'
    · exact createGo_lookup_keep rest (Store.addPath s p "") false p ""
        (Store.lookup_addPath_new s p "" hn)
    · exact ih (Store.addPath s n "") (List.nodup_cons.mp hnd).2 hrest p hp'

theorem createCommit_results (s : Store) (nodes : List String) :
    (createCommit s nodes).1 = (createGo s false nodes).1 := rfl

theorem createCommit_failed_store (s : Store) (nodes : List String)
    (h : (createGo s false nodes).1.all CreateRes.isOk = false) :
    (createCommit s nodes).2 = s := by
  unfold createCommit
  simp [h]

theorem createCommit_ok_store (s : Store) (nodes : List String)
    (h : (createGo s false nodes).1.all CreateRes.isOk = true) :
    (createCommit s nodes).2 = (createGo s false nodes).2 := by
  unfold createCommit
  simp [h]

/-! ### Path distinctness lemmas -/

theorem appLeftCancel (a b c : String) (h : a ++ b = a ++ c) : b = c := by
  have h2 := congrArg String.data h
  simp only [String.data_append] at h2
  exact String.ext (List.append_cancel_left h2)

theorem heliosRoot_ne_sub (ns suf : String) :
    ("/helios" : String) ≠ ("/helios/" ++ ns) ++ suf := by
  intro he
  have hl := congrArg String.length he
  rw [String.length_append, String.length_append] at hl
  have h7 : ("/helios" : String).length = 7 := rfl
  have h8 : ("/helios/" : String).length = 8 := rfl
  omega

theorem heliosRoot_ne_head (ns : String) :
    ("/helios" : String) ≠ "/helios/" ++ ns := by
  intro he
  have hl := congrArg String.length he
  rw [String.length_append] at hl
  have h7 : ("/helios" : String).length = 7 := rfl
  have h8 : ("/helios/" : String).length = 8 := rfl
  omega

theorem helios_notin_nodeList (ns : String) : ("/helios" : String) ∉ nodeList ns := by
  intro h
  simp only [nodeList, List.mem_cons, List.not_mem_nil, or_false] at h
  rcases h with h | h | h | h | h | h
  · exact heliosRoot_ne_head ns h
  · exact heliosRoot_ne_sub ns "/config" h
  · exact heliosRoot_ne_sub ns "/config/hosts" h
  · exact heliosRoot_ne_sub ns "/config/id" h
  · exact heliosRoot_ne_sub ns "/status" h
  · exact heliosRoot_ne_sub ns "/status/hosts" h

theorem nodeList_eq_map (ns : String) :
    nodeList ns =
      (["", "/config", "/config/hosts", "/config/id", "/status",
        "/status/hosts"] : List String).map (fun suf => ("/helios/" ++ ns) ++ suf) := by
  simp [nodeList, String.append_empty]

theorem nodeList_nodup (ns : String) : (nodeList ns).Nodup := by
  rw [nodeList_eq_map]
  refine List.Nodup.map (fun x y hxy => appLeftCancel _ x y hxy) ?_
  decide

/-! ### Unfolding lemmas for rootEnsure and bootstrapRun -/

theorem rootEnsure_present (s : Store) (race : List (String × String))
    (h : Store.pathExists s "/helios" = true) :
    rootEnsure s race = ([Event.rootQuery], s, none) := by
  unfold rootEnsure
  simp [h]

theorem rootEnsure_race (s : Store) (race : List (String × String))
    (h1 : Store.pathExists s "/helios" = false)
    (h2 : Store.pathExists (Store.addAll s race) "/helios" = true) :
    rootEnsure s race =
      ([Event.rootQuery, Event.rootCreate], Store.addAll s race,
        some ZKerr.nodeExists) := by
  unfold rootEnsure
  simp [h1, h2]

theorem rootEnsure_creates (s : Store) (race : List (String × String))
    (h1 : Store.pathExists s "/helios" = false)
    (h2 : Store.pathExists (Store.addAll s race) "/helios" = false) :
    rootEnsure s race =
      ([Event.rootQuery, Event.rootCreate],
        Store.addPath (Store.addAll s race) "/helios" "", none) := by
  unfold rootEnsure
  simp [h1, h2]

theorem bootstrapRun_collision (s0 : Store) (ns : String) (itf : Interference)
    (h : phase1Passes s0 (nodeList ns) = false) :
    bootstrapRun s0 ns itf = ([Event.checkTxn], BootStatus.returned (some 1), s0) := by
  unfold bootstrapRun
  simp [h]

theorem bootstrapRun_raise (s0 : Store) (ns : String) (itf : Interference)
    (evs : List Event) (s2 : Store) (e : ZKerr)
    (h1 : phase1Passes s0 (nodeList ns) = true)
    (h2 : rootEnsure (Store.addAll s0 itf.afterCheck) itf.duringRoot =
      (evs, s2, some e)) :
    bootstrapRun s0 ns itf = (Event.checkTxn :: evs, BootStatus.raised e, s2) := by
  unfold bootstrapRun
  simp only [h1, if_true, h2]

theorem bootstrapRun_phase3 (s0 : Store) (ns : String) (itf : Interference)
    (evs : List Event) (s2 : Store)
    (h1 : phase1Passes s0 (nodeList ns) = true)
    (h2 : rootEnsure (Store.addAll s0 itf.afterCheck) itf.duringRoot =
      (evs, s2, none)) :
    bootstrapRun s0 ns itf =
      (Event.checkTxn :: (evs ++ [Event.createTxn]),
        BootStatus.returned
          (if (nodesCreated
              (createCommit (Store.addAll s2 itf.afterRoot) (nodeList ns)).1
              (nodeList ns)).all (fun b => b) then none else some 1),
        (createCommit (Store.addAll s2 itf.afterRoot) (nodeList ns)).2) := by
  unfold bootstrapRun
  simp only [h1, if_true, h2]
  rcases hcc : createCommit (Store.addAll s2 itf.afterRoot) (nodeList ns) with ⟨rs, s4⟩
  simp only [hcc]
  by_cases hall : (nodesCreated rs (nodeList ns)).all (fun b => b)
  · simp [hall]
  · simp only [Bool.not_eq_true] at hall
    simp [hall]

theorem storeAtPhase3_eq (s0 : Store) (ns : String) (itf : Interference)
    (evs : List Event) (s2 : Store)
    (h1 : phase1Passes s0 (nodeList ns) = true)
    (h2 : rootEnsure (Store.addAll s0 itf.afterCheck) itf.duringRoot =
      (evs, s2, none)) :
    storeAtPhase3 s0 ns itf = some (Store.addAll s2 itf.afterRoot) := by
  unfold storeAtPhase3
  simp only [h1, if_true, h2]

/-! ### Generator lemmas -/

theorem hexChar_mem (n : Nat) : hexChar n ∈ hexDigits := by
  unfold hexChar
  have h : n % 16 < hexDigits.length := by
    have h16 : n % 16 < 16 := Nat.mod_lt n (by norm_num)
    simpa [hexDigits] using h16
  rw [List.getD_eq_getElem hexDigits '0' h]
  exact List.getElem_mem h

theorem hexChar_ne_slash (n : Nat) : hexChar n ≠ '/' := by
  intro h
  have hm := hexChar_mem n
  rw [h] at hm
  revert hm
  decide

theorem uuidString_chars (r : Nat) :
    ∀ c ∈ (uuidString r).data, c = '-' ∨ c ∈ hexDigits := by
  have hg : ∀ a b c, c ∈ uuidGroup r a b → c = '-' ∨ c ∈ hexDigits := by
    intro a b c hm
    rcases List.mem_map.mp hm with ⟨i, _, hi⟩
    exact Or.inr (hi ▸ hexChar_mem _)
  intro c hc
  simp only [uuidString, String.data, List.mem_append, List.mem_singleton] at hc
  rcases hc with ((((((((h | h) | h) | h) | h) | h) | h) | h) | h) <;>
    first
      | exact Or.inl h
      | exact hg _ _ c h

theorem uuidString_length (r : Nat) : (uuidString r).length = 36 := by
  show (uuidString r).data.length = 36
  simp only [uuidString, String.data, List.length_append, List.length_singleton]
  simp [uuidGroup]

theorem uuidString_version_digit (r : Nat) :
    (uuidString r).data[14]? = some '4' := rfl

theorem uuidString_variant_digit (r : Nat) :
    ∃ c, (uuidString r).data[19]? = some c ∧ c ∈ ['8', '9', 'a', 'b'] := by
  refine ⟨hexChar (uuidNibble r 16), rfl, ?_⟩
  have hn : uuidNibble r 16 = 8 + (r / 16 ^ 15) % 4 := by
    unfold uuidNibble
    norm_num
  rw [hn]
  have h4 : (r / 16 ^ 15) % 4 < 4 := Nat.mod_lt _ (by norm_num)
  generalize hg : (r / 16 ^ 15) % 4 = m at h4 ⊢
  interval_cases m <;> decide

/-! ### Claim theorems -/

/-- Claim C6: for every namespace id, the list of namespace-scoped paths
built once at lines 79 to 86 and handed to both the Phase 1 check
transaction and the Phase 3 create transaction of bootstrapRun is
exactly the six paths id, id/config, id/config/hosts, id/config/id,
id/status and id/status/hosts under /helios, in a fixed tree shape
without duplicates, and the root /helios itself is not among them. -/
theorem c6_node_paths (ns : String) :
    nodeList ns =
      ["/helios/" ++ ns,
       "/helios/" ++ ns ++ "/config",
       "/helios/" ++ ns ++ "/config/hosts",
       "/helios/" ++ ns ++ "/config/id",
       "/helios/" ++ ns ++ "/status",
       "/helios/" ++ ns ++ "/status/hosts"] ∧
    (nodeList ns).Nodup ∧ ("/helios" : String) ∉ nodeList ns :=
  ⟨rfl, nodeList_nodup ns, helios_notin_nodeList ns⟩

/-- Claim C8: the namespace generator always succeeds, and for every
choice of the 128 random bits the rendered token is the canonical UUID
version 4 string: 36 characters drawn from the hexadecimal digits and
the dash, the version digit 4 at position 14 and a variant digit among
8, 9, a, b at position 19, and in particular no '/' character occurs. -/
theorem c8_generator (r : Nat) :
    (uuidString r).length = 36 ∧
    (∀ c ∈ (uuidString r).data, c ≠ '/') ∧
    (uuidString r).data[14]? = some '4' ∧
    ∃ c, (uuidString r).data[19]? = some c ∧ c ∈ ['8', '9', 'a', 'b'] := by
  refine ⟨uuidString_length r, ?_, uuidString_version_digit r,
    uuidString_variant_digit r⟩
  intro c hc
  rcases uuidString_chars r c hc with h | h
  · rw [h]
    decide
  · intro hs
    rw [hs] at h
    revert h
    decide

/-- Witness for C8 at random bits 0, character '0'. -/
theorem c8_generator_witness :
    (uuidString 0).length = 36 ∧ ('0' : Char) ≠ '/' ∧
      (uuidString 0).data[14]? = some '4' :=
  ⟨(c8_generator 0).1, (c8_generator 0).2.1 '0' (by decide),
    (c8_generator 0).2.2.1⟩

/-- Claim C5: in every execution of bootstrapRun, whenever the Phase 3
create transaction is submitted, the trace of store calls shows the
Phase 1 check commit first, then the Phase 2 root-ensure step (the root
existence query, possibly followed by the root create), and the Phase 3
commit last, strictly after both. -/
theorem c5_phase_order (s0 : Store) (ns : String) (itf : Interference) :
    Event.createTxn ∈ (bootstrapRun s0 ns itf).1 →
      (bootstrapRun s0 ns itf).1 =
          [Event.checkTxn, Event.rootQuery, Event.createTxn] ∨
        (bootstrapRun s0 ns itf).1 =
          [Event.checkTxn, Event.rootQuery, Event.rootCreate, Event.createTxn] := by
  intro hmem
  cases hp : phase1Passes s0 (nodeList ns) with
  | false =>
    rw [bootstrapRun_collision s0 ns itf hp] at hmem
    simp at hmem
  | true =>
    cases hroot : Store.pathExists (Store.addAll s0 itf.afterCheck) "/helios" with
    | true =>
      rw [bootstrapRun_phase3 s0 ns itf [Event.rootQuery] _ hp
        (rootEnsure_present _ itf.duringRoot hroot)]
      left
      rfl
    | false =>
      cases hroot2 : Store.pathExists
          (Store.addAll (Store.addAll s0 itf.afterCheck) itf.duringRoot)
          "/helios" with
      | true =>
        rw [bootstrapRun_raise s0 ns itf [Event.rootQuery, Event.rootCreate] _
          ZKerr.nodeExists hp (rootEnsure_race _ _ hroot hroot2)] at hmem
        simp at hmem
      | false =>
        rw [bootstrapRun_phase3 s0 ns itf [Event.rootQuery, Event.rootCreate] _
          hp (rootEnsure_creates _ _ hroot hroot2)]
        right
        rfl

/-- Witness for C5 on the empty store. -/
theorem c5_phase_order_witness :
    (bootstrapRun [] "u" noItf).1 =
        [Event.checkTxn, Event.rootQuery, Event.createTxn] ∨
      (bootstrapRun [] "u" noItf).1 =
        [Event.checkTxn, Event.rootQuery, Event.rootCreate, Event.createTxn] :=
  c5_phase_order [] "u" noItf (by decide)

/-- Claim C10: whenever bootstrap returns rather than raising, the value
is either None (the success path falls off the end of the function) or
the integer 1 (each of the two failure branches); it never returns 0,
and Python exit maps None, not only 0, to process exit code 0. -/
theorem c10_return_values (s0 : Store) (ns : String) (itf : Interference)
    (v : Option Nat) (s' : Store)
    (h : (bootstrapRun s0 ns itf).2 = (BootStatus.returned v, s')) :
    (v = none ∨ v = some 1) ∧ v ≠ some 0 ∧ pyExit none = 0 := by
  have hv : v = none ∨ v = some 1 := by
    cases hp : phase1Passes s0 (nodeList ns) with
    | false =>
      rw [bootstrapRun_collision s0 ns itf hp] at h
      simp only [Prod.mk.injEq, BootStatus.returned.injEq] at h
      exact Or.inr h.1.symm
    | true =>
      cases hroot : Store.pathExists (Store.addAll s0 itf.afterCheck)
          "/helios" with
      | true =>
        rw [bootstrapRun_phase3 s0 ns itf [Event.rootQuery] _ hp
          (rootEnsure_present _ itf.duringRoot hroot)] at h
        simp only [Prod.mk.injEq, BootStatus.returned.injEq] at h
        rcases h with ⟨h1, _⟩
        by_cases hall : (nodesCreated
            (createCommit (Store.addAll (Store.addAll s0 itf.afterCheck)
              itf.afterRoot) (nodeList ns)).1 (nodeList ns)).all
            (fun b => b) = true
        · rw [if_pos hall] at h1
          exact Or.inl h1.symm
        · rw [if_neg hall] at h1
          exact Or.inr h1.symm
      | false =>
        cases hroot2 : Store.pathExists
            (Store.addAll (Store.addAll s0 itf.afterCheck) itf.duringRoot)
            "/helios" with
        | true =>
          rw [bootstrapRun_raise s0 ns itf [Event.rootQuery, Event.rootCreate]
            _ ZKerr.nodeExists hp (rootEnsure_race _ _ hroot hroot2)] at h
          simp at h
        | false =>
          rw [bootstrapRun_phase3 s0 ns itf
            [Event.rootQuery, Event.rootCreate] _ hp
            (rootEnsure_creates _ _ hroot hroot2)] at h
          simp only [Prod.mk.injEq, BootStatus.returned.injEq] at h
          rcases h with ⟨h1, _⟩
          by_cases hall : (nodesCreated
              (createCommit (Store.addAll
                (Store.addPath (Store.addAll (Store.addAll s0 itf.afterCheck)
                  itf.duringRoot) "/helios" "") itf.afterRoot)
                (nodeList ns)).1 (nodeList ns)).all (fun b => b) = true
          · rw [if_pos hall] at h1
            exact Or.inl h1.symm
          · rw [if_neg hall] at h1
            exact Or.inr h1.symm
  refine ⟨hv, ?_, rfl⟩
  rcases hv with rfl | rfl <;> simp

/-- Witness for C10: the successful run on the empty store returns None. -/
theorem c10_return_values_witness :
    ((none : Option Nat) = none ∨ (none : Option Nat) = some 1) ∧
      (none : Option Nat) ≠ some 0 ∧ pyExit none = 0 :=
  c10_return_values [] "u" noItf none
    [("/helios", ""), ("/helios/u", ""), ("/helios/u/config", ""),
     ("/helios/u/config/hosts", ""), ("/helios/u/config/id", ""),
     ("/helios/u/status", ""), ("/helios/u/status/hosts", "")]
    (by decide)

/-- Claim C7: the process exits with code 0 when bootstrap reports
success (it returns None) and with code 1 on every failure: a collision
or creation failure returned as 1 from bootstrap, or a connection
timeout in main before the core runs. -/
theorem c7_exit_codes (s0 : Store) (ns : String) (itf : Interference) :
    processExit (mainRun ConnectOutcome.timedOut s0 ns itf) = 1 ∧
    ((bootstrapRun s0 ns itf).2.1 = BootStatus.returned none →
      processExit (mainRun ConnectOutcome.connected s0 ns itf) = 0) ∧
    ((bootstrapRun s0 ns itf).2.1 = BootStatus.returned (some 1) →
      processExit (mainRun ConnectOutcome.connected s0 ns itf) = 1) := by
  refine ⟨rfl, ?_, ?_⟩ <;>
    · intro h
      show processExit (bootstrapRun s0 ns itf).2.1 = _
      rw [h]
      rfl

/-- Witness for C7: timeout exits 1, the empty-store success exits 0,
and a collision on an occupied store exits 1. -/
theorem c7_exit_codes_witness :
    processExit (mainRun ConnectOutcome.timedOut [] "u" noItf) = 1 ∧
    processExit (mainRun ConnectOutcome.connected [] "u" noItf) = 0 ∧
    processExit (mainRun ConnectOutcome.connected [("/helios/u", "x")] "u"
      noItf) = 1 :=
  ⟨(c7_exit_codes [] "u" noItf).1,
   (c7_exit_codes [] "u" noItf).2.1 (by decide),
   (c7_exit_codes [("/helios/u", "x")] "u" noItf).2.2 (by decide)⟩

theorem pathExists_single (p c q : String) (h : ¬(p = q)) :
    Store.pathExists [(p, c)] q = false := by
  simp [Store.pathExists, Store.lookup, h]

/-- Claim C3: for every namespace id, bootstrap against the empty store
returns success (the value None), and afterwards the root /helios and
all six namespace-scoped paths exist in the store, each with empty
content. -/
theorem c3_happy_path (ns : String) :
    (bootstrapRun [] ns noItf).2.1 = BootStatus.returned none ∧
    Store.lookup (bootstrapRun [] ns noItf).2.2 "/helios" = some "" ∧
    ∀ p ∈ nodeList ns, Store.lookup (bootstrapRun [] ns noItf).2.2 p = some "" := by
  have hp : phase1Passes [] (nodeList ns) = true := by
    rw [show (nodeList ns) = ("/helios/" ++ ns) ::
      ["/helios/" ++ ns ++ "/config", "/helios/" ++ ns ++ "/config/hosts",
       "/helios/" ++ ns ++ "/config/id", "/helios/" ++ ns ++ "/status",
       "/helios/" ++ ns ++ "/status/hosts"] from rfl, phase1Passes_cons]
    rfl
  have hre : rootEnsure (Store.addAll [] noItf.afterCheck) noItf.duringRoot =
      ([Event.rootQuery, Event.rootCreate], [("/helios", "")], none) := rfl
  have hrun := bootstrapRun_phase3 [] ns noItf _ _ hp hre
  have hs3 : Store.addAll [("/helios", "")] noItf.afterRoot = [("/helios", "")] := rfl
  rw [hs3] at hrun
  have hfresh : ∀ n ∈ nodeList ns, Store.pathExists [("/helios", "")] n = false := by
    intro n hn
    exact pathExists_single _ _ _ (fun he => helios_notin_nodeList ns (he ▸ hn))
  have hall : (createGo [("/helios", "")] false (nodeList ns)).1.all
      CreateRes.isOk = true :=
    createGo_ok_of_fresh (nodeList ns) [("/helios", "")] (nodeList_nodup ns) hfresh
  have hcreated : (nodesCreated
      (createCommit [("/helios", "")] (nodeList ns)).1 (nodeList ns)).all
      (fun b => b) = true := by
    rw [createCommit_results, nodesCreated_all_eq_isOk (nodeList ns)
      [("/helios", "")] false]
    exact hall
  refine ⟨?_, ?_, ?_⟩
  · rw [hrun, if_pos hcreated]
  · rw [hrun]
    show Store.lookup (createCommit [("/helios", "")] (nodeList ns)).2
      "/helios" = some ""
    rw [createCommit_ok_store _ _ hall]
    exact createGo_lookup_keep (nodeList ns) [("/helios", "")] false
      "/helios" "" rfl
  · intro p hp'
    rw [hrun]
    show Store.lookup (createCommit [("/helios", "")] (nodeList ns)).2
      p = some ""
    rw [createCommit_ok_store _ _ hall]
    exact createGo_lookup_mem (nodeList ns) [("/helios", "")]
      (nodeList_nodup ns) hfresh p hp'

/-- Witness for C3 at namespace id w, checking one of the six paths. -/
theorem c3_happy_path_witness :
    (bootstrapRun [] "w" noItf).2.1 = BootStatus.returned none ∧
      Store.lookup (bootstrapRun [] "w" noItf).2.2 "/helios/w/config" = some "" :=
  ⟨(c3_happy_path "w").1,
   (c3_happy_path "w").2.2 "/helios/w/config" (by decide)⟩

theorem pathExists_false_iff (s : Store) (p : String) :
    Store.pathExists s p = false ↔ Store.lookup s p = none := by
  unfold Store.pathExists
  cases Store.lookup s p <;> simp

/-- Claim C1: whenever Phase 1 passes but the Phase 3 atomic create
transaction fails on at least one path, bootstrap returns the failure
value 1 and the final store is exactly the store the transaction was
committed against, so no namespace-scoped path that was absent before
the call (and not created by a concurrent actor) exists afterwards:
this call created none of the six paths. -/
theorem c1_phase3_atomic (s0 : Store) (ns : String) (itf : Interference)
    (s3 : Store)
    (h1 : phase1Passes s0 (nodeList ns) = true)
    (h2 : storeAtPhase3 s0 ns itf = some s3)
    (h3 : (createGo s3 false (nodeList ns)).1.all CreateRes.isOk = false) :
    (bootstrapRun s0 ns itf).2 = (BootStatus.returned (some 1), s3) ∧
    ∀ p ∈ nodeList ns, Store.pathExists s0 p = false → p ∉ itfPaths itf →
      Store.pathExists s3 p = false := by
  cases hroot : Store.pathExists (Store.addAll s0 itf.afterCheck) "/helios" with
  | true =>
    have hre := rootEnsure_present (Store.addAll s0 itf.afterCheck)
      itf.duringRoot hroot
    have hs3 := storeAtPhase3_eq s0 ns itf _ _ h1 hre
    rw [h2] at hs3
    have hs3' := Option.some.inj hs3
    subst hs3'
    constructor
    · have hcond : (nodesCreated (createCommit
          (Store.addAll (Store.addAll s0 itf.afterCheck) itf.afterRoot)
          (nodeList ns)).1 (nodeList ns)).all (fun b => b) = false := by
        rw [createCommit_results, nodesCreated_all_eq_isOk]
        exact h3
      rw [bootstrapRun_phase3 s0 ns itf _ _ h1 hre, if_neg (by simp [hcond]),
        createCommit_failed_store _ _ h3]
    · intro p _ hp0 hitf
      have hsplit : p ∉ itf.afterCheck.map Prod.fst ∧
          p ∉ itf.duringRoot.map Prod.fst ∧ p ∉ itf.afterRoot.map Prod.fst := by
        simp only [itfPaths, List.map_append, List.mem_append] at hitf
        push_neg at hitf
        exact ⟨hitf.1.1, hitf.1.2, hitf.2⟩
      rw [pathExists_false_iff]
      rw [Store.lookup_addAll_notin _ _ _ hsplit.2.2,
        Store.lookup_addAll_notin _ _ _ hsplit.1]
      exact (pathExists_false_iff s0 p).mp hp0
  | false =>
    cases hroot2 : Store.pathExists
        (Store.addAll (Store.addAll s0 itf.afterCheck) itf.duringRoot)
        "/helios" with
    | true =>
      have hre := rootEnsure_race _ _ hroot hroot2
      simp only [storeAtPhase3, h1, if_true, hre] at h2
      exact Option.noConfusion h2
    | false =>
      have hre := rootEnsure_creates _ _ hroot hroot2
      have hs3 := storeAtPhase3_eq s0 ns itf _ _ h1 hre
      rw [h2] at hs3
      have hs3' := Option.some.inj hs3
      subst hs3'
      constructor
      · have hcond : (nodesCreated (createCommit
            (Store.addAll (Store.addPath
              (Store.addAll (Store.addAll s0 itf.afterCheck) itf.duringRoot)
              "/helios" "") itf.afterRoot)
            (nodeList ns)).1 (nodeList ns)).all (fun b => b) = false := by
          rw [createCommit_results, nodesCreated_all_eq_isOk]
          exact h3
        rw [bootstrapRun_phase3 s0 ns itf _ _ h1 hre, if_neg (by simp [hcond]),
          createCommit_failed_store _ _ h3]
      · intro p hmem hp0 hitf
        have hsplit : p ∉ itf.afterCheck.map Prod.fst ∧
            p ∉ itf.duringRoot.map Prod.fst ∧
            p ∉ itf.afterRoot.map Prod.fst := by
          simp only [itfPaths, List.map_append, List.mem_append] at hitf
          push_neg at hitf
          exact ⟨hitf.1.1, hitf.1.2, hitf.2⟩
        have hnroot : ("/helios" : String) ≠ p :=
          fun he => helios_notin_nodeList ns (he ▸ hmem)
        rw [pathExists_false_iff]
        rw [Store.lookup_addAll_notin _ _ _ hsplit.2.2,
          Store.lookup_addPath_ne _ _ _ _ hnroot,
          Store.lookup_addAll_notin _ _ _ hsplit.2.1,
          Store.lookup_addAll_notin _ _ _ hsplit.1]
        exact (pathExists_false_iff s0 p).mp hp0

/-- Witness for C1: only /helios/v/config pre-exists, Phase 1 passes,
Phase 3 fails, the call returns 1 and creates no namespace path. -/
theorem c1_phase3_atomic_witness :
    (bootstrapRun [("/helios/v/config", "")] "v" noItf).2 =
        (BootStatus.returned (some 1),
          [("/helios/v/config", ""), ("/helios", "")]) ∧
      Store.pathExists [("/helios/v/config", ""), ("/helios", "")]
        "/helios/v" = false :=
  have h := c1_phase3_atomic [("/helios/v/config", "")] "v" noItf
    [("/helios/v/config", ""), ("/helios", "")] (by decide) (by decide)
    (by decide)
  ⟨h.1, h.2 "/helios/v" (by decide) (by decide) (by decide)⟩

/-- Counterexample to claim C2 as stated: in the store where only the
namespace-scoped path /helios/u/config pre-exists, bootstrap does not
abort in the Phase 1 collision branch (the trace shows the root-ensure
step and the Phase 3 commit were still executed), the collision report
of lines 100 to 102 is empty rather than the pre-existing path list,
and the call creates an additional path, the root /helios. -/
theorem c2_counterexample :
    Store.pathExists [("/helios/u/config", "")] "/helios/u/config" = true ∧
    (bootstrapRun [("/helios/u/config", "")] "u" noItf).1 =
      [Event.checkTxn, Event.rootQuery, Event.rootCreate, Event.createTxn] ∧
    collisionReport [("/helios/u/config", "")] (nodeList "u") = [] ∧
    Store.pathExists [("/helios/u/config", "")] "/helios" = false ∧
    Store.pathExists
      (bootstrapRun [("/helios/u/config", "")] "u" noItf).2.2 "/helios" = true := by
  decide

/-- Claim C2 as amended: when at least one of the six namespace-scoped
paths pre-exists and no concurrent actor interferes, bootstrap returns
the failure value 1 and creates none of the six namespace-scoped paths;
only the root /helios may additionally be created, and the Phase 1
collision branch with its report fires only when the transaction result
vector contains a True entry, which requires the first listed path to
pre-exist. -/
theorem c2_collision_amended (s0 : Store) (ns : String)
    (h : ∃ p ∈ nodeList ns, Store.pathExists s0 p = true) :
    (∃ s', (bootstrapRun s0 ns noItf).2 = (BootStatus.returned (some 1), s')) ∧
    ∀ q ∈ nodeList ns, Store.pathExists s0 q = false →
      Store.pathExists (bootstrapRun s0 ns noItf).2.2 q = false := by
  cases hp : phase1Passes s0 (nodeList ns) with
  | false =>
    rw [bootstrapRun_collision s0 ns noItf hp]
    exact ⟨⟨s0, rfl⟩, fun q _ hq => hq⟩
  | true =>
    cases hroot : Store.pathExists s0 "/helios" with
    | true =>
      have hre : rootEnsure (Store.addAll s0 noItf.afterCheck)
          noItf.duringRoot =
          ([Event.rootQuery], Store.addAll s0 noItf.afterCheck, none) :=
        rootEnsure_present _ _ hroot
      have hrun := bootstrapRun_phase3 s0 ns noItf _ _ hp hre
      have hs3 : Store.addAll (Store.addAll s0 noItf.afterCheck)
          noItf.afterRoot = s0 := rfl
      rw [hs3] at hrun
      obtain ⟨p, hpmem, hpex⟩ := h
      have h3 : (createGo s0 false (nodeList ns)).1.all CreateRes.isOk = false :=
        createGo_fail_of_exists (nodeList ns) s0 ⟨p, hpmem, hpex⟩
      have hcond : (nodesCreated (createCommit s0 (nodeList ns)).1
          (nodeList ns)).all (fun b => b) = false := by
        rw [createCommit_results, nodesCreated_all_eq_isOk]
        exact h3
      rw [if_neg (by simp [hcond]), createCommit_failed_store _ _ h3] at hrun
      refine ⟨⟨s0, by rw [hrun]⟩, ?_⟩
      intro q _ hq
      rw [hrun]
      exact hq
    | false =>
      have hroot1 : Store.pathExists (Store.addAll s0 noItf.afterCheck)
          "/helios" = false := hroot
      have hroot2 : Store.pathExists
          (Store.addAll (Store.addAll s0 noItf.afterCheck) noItf.duringRoot)
          "/helios" = false := hroot
      have hre := rootEnsure_creates _ _ hroot1 hroot2
      have hrun := bootstrapRun_phase3 s0 ns noItf _ _ hp hre
      have hs3 : Store.addAll (Store.addPath
          (Store.addAll (Store.addAll s0 noItf.afterCheck) noItf.duringRoot)
          "/helios" "") noItf.afterRoot = Store.addPath s0 "/helios" "" := rfl
      rw [hs3] at hrun
      obtain ⟨p, hpmem, hpex⟩ := h
      have hpex' : Store.pathExists (Store.addPath s0 "/helios" "") p = true := by
        rw [Store.pathExists_addPath, hpex]
        rfl
      have h3 : (createGo (Store.addPath s0 "/helios" "") false
          (nodeList ns)).1.all CreateRes.isOk = false :=
        createGo_fail_of_exists (nodeList ns) _ ⟨p, hpmem, hpex'⟩
      have hcond : (nodesCreated (createCommit (Store.addPath s0 "/helios" "")
          (nodeList ns)).1 (nodeList ns)).all (fun b => b) = false := by
        rw [createCommit_results, nodesCreated_all_eq_isOk]
        exact h3
      rw [if_neg (by simp [hcond]), createCommit_failed_store _ _ h3] at hrun
      refine ⟨⟨Store.addPath s0 "/helios" "", by rw [hrun]⟩, ?_⟩
      intro q hqmem hq
      rw [hrun]
      show Store.pathExists (Store.addPath s0 "/helios" "") q = false
      rw [Store.pathExists_addPath, hq]
      have hnq : ¬("/helios" = q) :=
        fun he => helios_notin_nodeList ns (he ▸ hqmem)
      simp [hnq]

/-- Witness for the amended C2: with /helios/x pre-existing, the
collision branch returns 1 and the remaining five paths stay absent. -/
theorem c2_collision_amended_witness :
    (∃ s', (bootstrapRun [("/helios/x", "old")] "x" noItf).2 =
        (BootStatus.returned (some 1), s')) ∧
      Store.pathExists (bootstrapRun [("/helios/x", "old")] "x" noItf).2.2
        "/helios/x/config" = false :=
  have h := c2_collision_amended [("/helios/x", "old")] "x"
    ⟨"/helios/x", by decide, by decide⟩
  ⟨h.1, h.2 "/helios/x/config" (by decide) (by decide)⟩

/-- Claim C4, evaluated at the failing input: starting from the empty
store, Phase 1 passes and the root query reports /helios absent; a
concurrent actor then creates /helios before this call's root create is
applied, and instead of treating the resulting NodeExistsError as
success and proceeding to Phase 3, bootstrap raises it uncaught: the
trace stops at the root create and no Phase 3 commit happens. -/
theorem c4_root_race_eval :
    bootstrapRun [] "u" ⟨[], [("/helios", "")], []⟩ =
      ([Event.checkTxn, Event.rootQuery, Event.rootCreate],
        BootStatus.raised ZKerr.nodeExists, [("/helios", "")]) := by
  decide

theorem createCommit_lookup_notin (s : Store) (nodes : List String)
    (p : String) (h : p ∉ nodes) :
    Store.lookup (createCommit s nodes).2 p = Store.lookup s p := by
  by_cases hall : (createGo s false nodes).1.all CreateRes.isOk = true
  · rw [createCommit_ok_store _ _ hall]
    exact createGo_lookup_notin nodes s false p h
  · have hall' : (createGo s false nodes).1.all CreateRes.isOk = false := by
      simpa using hall
    rw [createCommit_failed_store _ _ hall']

theorem createCommit_lookup_keep (s : Store) (nodes : List String)
    (p c : String) (h : Store.lookup s p = some c) :
    Store.lookup (createCommit s nodes).2 p = some c := by
  by_cases hall : (createGo s false nodes).1.all CreateRes.isOk = true
  · rw [createCommit_ok_store _ _ hall]
    exact createGo_lookup_keep nodes s false p c h
  · have hall' : (createGo s false nodes).1.all CreateRes.isOk = false := by
      simpa using hall
    rw [createCommit_failed_store _ _ hall']
    exact h

/-- Claim C9: the only mutating operations a bootstrap call issues are
creates, and only on the root /helios and its own six namespace-scoped
paths: every path outside that set that no concurrent actor touches has
the same lookup result after the call as before it, and every node
present before the call is still present with the same content
afterwards (nothing is ever deleted or overwritten). -/
theorem c9_frame (s0 : Store) (ns : String) (itf : Interference) :
    (∀ p, p ≠ "/helios" → p ∉ nodeList ns → p ∉ itfPaths itf →
      Store.lookup (bootstrapRun s0 ns itf).2.2 p = Store.lookup s0 p) ∧
    (∀ p c, Store.lookup s0 p = some c →
      Store.lookup (bootstrapRun s0 ns itf).2.2 p = some c) := by
  cases hp : phase1Passes s0 (nodeList ns) with
  | false =>
    rw [bootstrapRun_collision s0 ns itf hp]
    exact ⟨fun p _ _ _ => rfl, fun p c h => h⟩
  | true =>
    cases hroot : Store.pathExists (Store.addAll s0 itf.afterCheck)
        "/helios" with
    | true =>
      have hre := rootEnsure_present (Store.addAll s0 itf.afterCheck)
        itf.duringRoot hroot
      rw [bootstrapRun_phase3 s0 ns itf _ _ hp hre]
      constructor
      · intro p hr hn hitf
        have hsplit : p ∉ itf.afterCheck.map Prod.fst ∧
            p ∉ itf.duringRoot.map Prod.fst ∧
            p ∉ itf.afterRoot.map Prod.fst := by
          simp only [itfPaths, List.map_append, List.mem_append] at hitf
          push_neg at hitf
          exact ⟨hitf.1.1, hitf.1.2, hitf.2⟩
        show Store.lookup (createCommit (Store.addAll
          (Store.addAll s0 itf.afterCheck) itf.afterRoot) (nodeList ns)).2 p =
          Store.lookup s0 p
        rw [createCommit_lookup_notin _ _ _ hn,
          Store.lookup_addAll_notin _ _ _ hsplit.2.2,
          Store.lookup_addAll_notin _ _ _ hsplit.1]
      · intro p c h
        show Store.lookup (createCommit (Store.addAll
          (Store.addAll s0 itf.afterCheck) itf.afterRoot) (nodeList ns)).2 p =
          some c
        exact createCommit_lookup_keep _ _ _ _
          (Store.lookup_addAll_keep _ _ _ _
            (Store.lookup_addAll_keep _ _ _ _ h))
    | false =>
      cases hroot2 : Store.pathExists
          (Store.addAll (Store.addAll s0 itf.afterCheck) itf.duringRoot)
          "/helios" with
      | true =>
        have hre := rootEnsure_race _ _ hroot hroot2
        rw [bootstrapRun_raise s0 ns itf _ _ _ hp hre]
        constructor
        · intro p _ _ hitf
          have hsplit : p ∉ itf.afterCheck.map Prod.fst ∧
              p ∉ itf.duringRoot.map Prod.fst ∧
              p ∉ itf.afterRoot.map Prod.fst := by
            simp only [itfPaths, List.map_append, List.mem_append] at hitf
            push_neg at hitf
            exact ⟨hitf.1.1, hitf.1.2, hitf.2⟩
          show Store.lookup (Store.addAll (Store.addAll s0 itf.afterCheck)
            itf.duringRoot) p = Store.lookup s0 p
          rw [Store.lookup_addAll_notin _ _ _ hsplit.2.1,
            Store.lookup_addAll_notin _ _ _ hsplit.1]
        · intro p c h
          exact Store.lookup_addAll_keep _ _ _ _
            (Store.lookup_addAll_keep _ _ _ _ h)
      | false =>
        have hre := rootEnsure_creates _ _ hroot hroot2
        rw [bootstrapRun_phase3 s0 ns itf _ _ hp hre]
        constructor
        · intro p hr hn hitf
          have hsplit : p ∉ itf.afterCheck.map Prod.fst ∧
              p ∉ itf.duringRoot.map Prod.fst ∧
              p ∉ itf.afterRoot.map Prod.fst := by
            simp only [itfPaths, List.map_append, List.mem_append] at hitf
            push_neg at hitf
            exact ⟨hitf.1.1, hitf.1.2, hitf.2⟩
          show Store.lookup (createCommit (Store.addAll (Store.addPath
            (Store.addAll (Store.addAll s0 itf.afterCheck) itf.duringRoot)
            "/helios" "") itf.afterRoot) (nodeList ns)).2 p =
            Store.lookup s0 p
          rw [createCommit_lookup_notin _ _ _ hn,
            Store.lookup_addAll_notin _ _ _ hsplit.2.2,
            Store.lookup_addPath_ne _ _ _ _ (fun he => hr he.symm),
            Store.lookup_addAll_notin _ _ _ hsplit.2.1,
            Store.lookup_addAll_notin _ _ _ hsplit.1]
        · intro p c h
          show Store.lookup (createCommit (Store.addAll (Store.addPath
            (Store.addAll (Store.addAll s0 itf.afterCheck) itf.duringRoot)
            "/helios" "") itf.afterRoot) (nodeList ns)).2 p = some c
          exact createCommit_lookup_keep _ _ _ _
            (Store.lookup_addAll_keep _ _ _ _
              (Store.lookup_addPath_keep _ _ _ _ _
                (Store.lookup_addAll_keep _ _ _ _
                  (Store.lookup_addAll_keep _ _ _ _ h))))

/-- Witness for C9: a foreign path /other keeps its content across a
successful bootstrap of namespace y. -/
theorem c9_frame_witness :
    Store.lookup (bootstrapRun [("/other", "z")] "y" noItf).2.2 "/other" =
        Store.lookup [("/other", "z")] "/other" ∧
      Store.lookup (bootstrapRun [("/other", "z")] "y" noItf).2.2 "/other" =
        some "z" :=
  ⟨(c9_frame [("/other", "z")] "y" noItf).1 "/other" (by decide) (by decide)
    (by decide),
   (c9_frame [("/other", "z")] "y" noItf).2 "/other" "z" (by decide)⟩
